import Mathlib

/-!
# Verification of the scrying capture-orchestration core (`src/main.rs`)

This development shallowly embeds the capture-orchestration layer of the
repository: the bounded-concurrency RDP worker pool (`rdp_worker`,
`src/main.rs` lines 134-185), the sequential web capture pipeline
(`web_worker`, lines 187-245), the orchestrator (`main`, lines 52-132) and
the output-directory setup (lines 101-113).

The RDP pool is concurrent, so it is embedded as a small-step transition
system: scheduler loop iterations (`try_recv` then conditional spawn /
break) are one deterministic step, and the environment (the spawned
capture tasks) contributes nondeterministic "task sent Complete" steps and
the outcomes observed at join time.  The web pipeline and the orchestrator
are sequential, so they are embedded as pure functions over the sequence
of outcomes the environment would hand them.
-/

namespace Scrying

/-- The `pub enum ThreadStatus { Complete }` type (`main.rs` lines 48-50): the status
channel carries a single-variant, payload-free signal, so the channel
contents are fully described by a count of unconsumed messages; the model
tracks the indices of the tasks that have sent their signal (`done`) and
how many signals the scheduler has consumed (`consumed`). -/
inductive ThreadStatus
  | Complete
  deriving DecidableEq, Repr

/-- Phase of the `rdp_worker` control flow: the dispatch loop
(lines 147-175), the join loop (lines 177-182), the `Ok(())` return
(line 184), or a panic raised by `w.join().unwrap()` (line 179). -/
inductive Phase
  | dispatching
  | joining
  | finished
  | panicked
  deriving DecidableEq, Repr

/-- State of `rdp_worker` (lines 134-185) together with the state of the
status channel and of the spawned tasks.

* `pending`    : what remains of `targets_iter` (line 141);
* `spawned`    : the targets already spawned, in spawn order — the
                 `workers` vector of handles (line 142/169);
* `numWorkers` : the scheduler's `num_workers` counter (line 140);
* `consumed`   : how many `ThreadStatus::Complete` messages the scheduler
                 has received on `thread_status_rx` (lines 153-159);
* `done`       : indices (into `spawned`) of the tasks that have sent
                 `Complete` on their sender clone, most recent first; the
                 channel therefore holds `done.length - consumed`
                 unconsumed messages;
* `joined`     : how many worker handles the join loop (line 177) has
                 joined, in spawn order;
* `warned`     : indices of joined workers whose own result `is_err()`,
                 for which line 180 logs a warning;
* `retVal`     : `none` while the function has not returned (or has
                 panicked), `some r` once it returns `r`. -/
structure RdpState (α : Type) where
  pending : List α
  spawned : List α
  numWorkers : Nat
  consumed : Nat
  done : List Nat
  phase : Phase
  joined : Nat
  warned : List Nat
  retVal : Option (Except Unit Unit)

/-- The concurrency cap `let max_workers: usize = 3;` (line 139). -/
def maxWorkers : Nat := 3

/-- Initial state of `rdp_worker` on entry (lines 139-146): no workers,
empty channel, full iterator. -/
def initState {α : Type} (targets : List α) : RdpState α :=
  { pending := targets
    spawned := []
    numWorkers := 0
    consumed := 0
    done := []
    phase := Phase.dispatching
    joined := 0
    warned := []
    retVal := none }

/-- The `try_recv` part of one dispatch-loop iteration (lines 153-159):
if the channel holds an unconsumed `Complete` message, consume it and
decrement `num_workers`; otherwise (`Err(_)`) do nothing. -/
def recvStep {α : Type} (s : RdpState α) : RdpState α :=
  if s.consumed < s.done.length then
    { s with consumed := s.consumed + 1, numWorkers := s.numWorkers - 1 }
  else s

/-- The spawn-or-break part of one dispatch-loop iteration
(lines 160-174): if `num_workers < max_workers`, take the next target and
spawn a task for it (push its handle, increment `num_workers`), or break
out of the loop when the iterator is exhausted; if the pool is full, fall
through and loop again. -/
def dispatchStep {α : Type} (s : RdpState α) : RdpState α :=
  if s.numWorkers < maxWorkers then
    match s.pending with
    | t :: rest =>
        { s with pending := rest
                 spawned := s.spawned ++ [t]
                 numWorkers := s.numWorkers + 1 }
    | [] => { s with phase := Phase.joining }
  else s

/-- One full iteration of the dispatch loop (lines 147-175): a
non-blocking receive followed by the spawn-or-break decision, atomic in
the scheduler thread. -/
def schedStep {α : Type} (s : RdpState α) : RdpState α :=
  dispatchStep (recvStep s)

/-- Small-step transition relation for `rdp_worker` interleaved with its
environment (the spawned capture tasks).

* `sched`    : the scheduler thread runs one dispatch-loop iteration;
* `complete` : spawned task `i` sends its single `ThreadStatus::Complete`
               on its cloned sender (`tx`, line 164/166) — each task sends
               at most once, enforced by `i ∉ s.done`;
* `joinOk`   : the join loop (lines 177-182) joins the next handle, whose
               task terminated with result `is_err() = isErr`; an `Err`
               result only logs a warning (line 180) and the loop
               continues;
* `joinFail` : `w.join()` itself fails and `.unwrap()` (line 179) panics;
* `finish`   : all handles joined, `rdp_worker` returns `Ok(())`
               (line 184). -/
inductive Step {α : Type} : RdpState α → RdpState α → Prop
  | sched (s : RdpState α) :
      s.phase = Phase.dispatching → Step s (schedStep s)
  | complete (s : RdpState α) (i : Nat) :
      (s.phase = Phase.dispatching ∨ s.phase = Phase.joining) →
      i < s.spawned.length → i ∉ s.done →
      Step s { s with done := i :: s.done }
  | joinOk (s : RdpState α) (isErr : Bool) :
      s.phase = Phase.joining → s.joined < s.spawned.length →
      Step s { s with joined := s.joined + 1,
                      warned := if isErr then s.warned ++ [s.joined]
                                else s.warned }
  | joinFail (s : RdpState α) :
      s.phase = Phase.joining → s.joined < s.spawned.length →
      Step s { s with phase := Phase.panicked }
  | finish (s : RdpState α) :
      s.phase = Phase.joining → s.joined = s.spawned.length →
      Step s { s with phase := Phase.finished,
                      retVal := some (Except.ok ()) }

/-- States reachable by `rdp_worker` on input target list `targets`. -/
inductive Reachable {α : Type} (targets : List α) : RdpState α → Prop
  | init : Reachable targets (initState targets)
  | step {s t : RdpState α} :
      Reachable targets s → Step s t → Reachable targets t

/-! ## Web capture pipeline (`web_worker`, lines 187-245) -/

/-- Outcome of one `web::capture` call, as discriminated at the call sites
in `web_worker`: `Ok(())`, `Err(Error::IoError(_))` (lines 215, 233), or a
backend-specific error — `Err(Error::WkhtmltoimageError(_))` (line 220) /
`Err(Error::ChromeError(_))` (line 238). -/
inductive CaptureResult
  | ok
  | ioError
  | backendErr
  deriving DecidableEq, Repr

/-- The three compiled-in web backends (`#[cfg(feature = ...)]` blocks at
lines 212, 227, 230); exactly one is active per run. -/
inductive Backend
  | wkhtmltoimage
  | wkhtmltoimageBin
  | headlessChrome
  deriving DecidableEq, Repr

/-- What the `for target in &targets.web_targets` loop body does after one
capture: go on to the next target, `break` out of the loop, or panic the
thread. -/
inductive LoopCtl
  | next
  | stop
  | abort
  deriving DecidableEq, Repr

/-- Per-backend loop control, read off the `web_worker` loop body:

* `wkhtmltoimage` (lines 212-226): `IoError` → `error!` + `break`;
  `WkhtmltoimageError` → `info!`, continue; `Ok` → continue.
* `headlesschrome` (lines 230-242): `IoError` → `error!` + `break`;
  `ChromeError` → `warn!`, continue; `Ok` → continue.
* `wkhtmltoimage_bin` (lines 227-228): `web::capture(..).unwrap()` — any
  `Err` panics the thread; `Ok` → continue. -/
def captureCtl : Backend → CaptureResult → LoopCtl
  | _, CaptureResult.ok => LoopCtl.next
  | Backend.wkhtmltoimage, CaptureResult.ioError => LoopCtl.stop
  | Backend.wkhtmltoimage, CaptureResult.backendErr => LoopCtl.next
  | Backend.headlessChrome, CaptureResult.ioError => LoopCtl.stop
  | Backend.headlessChrome, CaptureResult.backendErr => LoopCtl.next
  | Backend.wkhtmltoimageBin, CaptureResult.ioError => LoopCtl.abort
  | Backend.wkhtmltoimageBin, CaptureResult.backendErr => LoopCtl.abort

/-- Events of a web-pipeline run: the capture of target `i` starts
(`web::capture` is invoked) / finishes (the call returns). -/
inductive WebEvent
  | start (i : Nat)
  | finish (i : Nat)
  deriving DecidableEq, Repr

/-- The `web_worker` target loop (lines 211-243), starting at target
index `i`, given the outcome each remaining capture would yield.  Returns
the event trace, the number of targets attempted, and `some ()` when the
loop exits normally or by `break` (so `web_worker` returns `Ok(())`,
line 244) or `none` when the thread panics (`wkhtmltoimage_bin` unwrap,
line 228). -/
def webGo (b : Backend) : Nat → List CaptureResult →
    List WebEvent × Nat × Option Unit
  | _, [] => ([], 0, some ())
  | i, r :: rest =>
      match captureCtl b r with
      | LoopCtl.next =>
          let rec_result := webGo b (i + 1) rest
          (WebEvent.start i :: WebEvent.finish i :: rec_result.1,
           rec_result.2.1 + 1, rec_result.2.2)
      | LoopCtl.stop =>
          ([WebEvent.start i, WebEvent.finish i], 1, some ())
      | LoopCtl.abort =>
          ([WebEvent.start i, WebEvent.finish i], 1, none)

/-- A full `web_worker` run under backend `b`, one entry of `outs` per
web target in source order. -/
def webRun (b : Backend) (outs : List CaptureResult) :
    List WebEvent × Nat × Option Unit :=
  webGo b 0 outs

/-- Number of targets `web_worker` attempts (invokes `web::capture` on). -/
def webAttempts (b : Backend) (outs : List CaptureResult) : Nat :=
  (webRun b outs).2.1

/-- Whether the `web_worker` thread terminates normally (`some ()`, the
function returns `Ok(())`) or panics (`none`). -/
def webResult (b : Backend) (outs : List CaptureResult) : Option Unit :=
  (webRun b outs).2.2

/-- The start/finish event trace of a `web_worker` run. -/
def webEvents (b : Backend) (outs : List CaptureResult) : List WebEvent :=
  (webRun b outs).1

/-! ## Orchestrator (`main`, lines 52-132) and directory setup -/

/-- Environment of one `main` run: which fallible external operations
succeed, and how the two pipeline threads end.

* `logFileRequested` / `logFileCreateOk`: `opts.log_file` is `Some` and
  whether `File::create(log_file)` succeeds (line 73, `.unwrap()`);
* `loggerInitOk`: `CombinedLogger::init` succeeds (line 93, `.unwrap()`);
* `rdpDirExists` / `rdpDirCreateOk` (and web): lines 101-113;
* `rdpThreadPanicked`: the RDP thread panicked, so
  `rdp_handle.join()` is `Err` (line 130, first `.unwrap()`);
* `rdpWorkerErr`: the value `rdp_worker` returned is `Err(())`
  (line 130, second `.unwrap()`);
* `webThreadPanicked`: the web thread panicked — either inside
  `web_worker` or at the closure's `web_worker(..).unwrap()` (line 126) —
  so `web_handle.join()` is `Err` (line 131, `.unwrap()`). -/
structure MainEnv where
  logFileRequested : Bool
  logFileCreateOk : Bool
  loggerInitOk : Bool
  rdpDirExists : Bool
  rdpDirCreateOk : Bool
  webDirExists : Bool
  webDirCreateOk : Bool
  rdpThreadPanicked : Bool
  rdpWorkerErr : Bool
  webThreadPanicked : Bool
  deriving DecidableEq, Repr

/-- The `main` function (lines 52-132) as a sequence of fallible steps in
source order; `none` means the process aborts by panic, `some ()` means
`main` returns and the process exits successfully. -/
def mainRun (e : MainEnv) : Option Unit :=
  if e.logFileRequested && !e.logFileCreateOk then none
  else if !e.loggerInitOk then none
  else if !e.rdpDirExists && !e.rdpDirCreateOk then none
  else if !e.webDirExists && !e.webDirCreateOk then none
  else if e.rdpThreadPanicked then none
  else if e.rdpWorkerErr then none
  else if e.webThreadPanicked then none
  else some ()

/-- Filesystem state seen by the directory setup: the contents of each of
the two output directories, `none` when the directory does not exist
(`!dir.is_dir()`), `some c` when it exists with contents `c`. -/
structure DirState where
  rdp : Option Nat
  web : Option Nat
  deriving DecidableEq, Repr

/-- Whether each `create_dir_all` call would succeed if attempted. -/
structure FsEnv where
  rdpCreateOk : Bool
  webCreateOk : Bool
  deriving DecidableEq, Repr

/-- One `if !dir.is_dir() { create_dir_all(dir).unwrap_or_else(panic) }`
block (lines 104-108 / 109-113): an existing directory is left untouched;
a missing one is created empty (`some 0`) or the process panics. -/
def ensureDir (createOk : Bool) : Option Nat → Option (Option Nat)
  | some c => some (some c)
  | none => if createOk then some (some 0) else none

/-- The output-directory setup of `main` (lines 101-113): ensure the RDP
directory, then the web directory; `none` is a process-aborting panic. -/
def setupDirs (env : FsEnv) (fs : DirState) : Option DirState :=
  match ensureDir env.rdpCreateOk fs.rdp with
  | none => none
  | some r =>
      match ensureDir env.webCreateOk fs.web with
      | none => none
      | some w => some { rdp := r, web := w }

/-! ## Inductive invariant of the RDP pool transition system -/

/-- Helper: a duplicate-free list of indices below `n` has at most `n`
elements. -/
lemma length_le_of_nodup_bounded {l : List Nat} {n : Nat}
    (hnd : l.Nodup) (hb : ∀ i ∈ l, i < n) : l.length ≤ n := by
  have hsub : l.toFinset ⊆ Finset.range n := by
    intro i hi
    exact Finset.mem_range.mpr (hb i (List.mem_toFinset.mp hi))
  have hcard := Finset.card_le_card hsub
  rw [List.toFinset_card_of_nodup hnd, Finset.card_range] at hcard
  exact hcard

/-- The inductive invariant of the `rdp_worker` transition system.

* `counter`  : `num_workers` counts spawned tasks whose `Complete` signal
               has not yet been consumed;
* `nodup` / `bounded` : each spawned task has sent at most one `Complete`
               signal, and only spawned tasks have sent one;
* `recvLe`   : the scheduler cannot consume more signals than were sent;
* `cap`      : `num_workers` never exceeds `max_workers = 3`;
* `order`    : the spawned prefix and the remaining iterator always
               recompose the input target list;
* `drained`  : dispatch stops only once the iterator is exhausted;
* `joinedLe` / `finJoined` : the join loop joins each handle once, and
               `rdp_worker` reaches its return only after joining all;
* `retFin` / `retNone` : the only value `rdp_worker` ever returns is
               `Ok(())`, at line 184. -/
structure PoolInv {α : Type} (targets : List α) (s : RdpState α) : Prop where
  counter : s.numWorkers + s.consumed = s.spawned.length
  nodup : s.done.Nodup
  bounded : ∀ i ∈ s.done, i < s.spawned.length
  recvLe : s.consumed ≤ s.done.length
  cap : s.numWorkers ≤ maxWorkers
  order : s.spawned ++ s.pending = targets
  drained : s.phase ≠ Phase.dispatching → s.pending = []
  joinedLe : s.joined ≤ s.spawned.length
  finJoined : s.phase = Phase.finished → s.joined = s.spawned.length
  retFin : s.phase = Phase.finished → s.retVal = some (Except.ok ())
  retNone : s.phase ≠ Phase.finished → s.retVal = none

lemma poolInv_init {α : Type} (targets : List α) :
    PoolInv targets (initState targets) := by
  constructor <;> simp [initState, maxWorkers]

lemma recvStep_phase {α : Type} (s : RdpState α) :
    (recvStep s).phase = s.phase := by
  unfold recvStep
  split <;> rfl

lemma poolInv_recvStep {α : Type} {targets : List α} {s : RdpState α}
    (h : PoolInv targets s) : PoolInv targets (recvStep s) := by
  unfold recvStep
  split
  case isTrue hlt =>
    have hdl : s.done.length ≤ s.spawned.length :=
      length_le_of_nodup_bounded h.nodup h.bounded
    have hcnt := h.counter
    have hcap := h.cap
    exact
      { counter := by simp only; omega
        nodup := h.nodup
        bounded := h.bounded
        recvLe := by simp only; omega
        cap := by simp only; omega
        order := h.order
        drained := h.drained
        joinedLe := h.joinedLe
        finJoined := h.finJoined
        retFin := h.retFin
        retNone := h.retNone }
  case isFalse => exact h

lemma poolInv_dispatchStep {α : Type} {targets : List α} {s : RdpState α}
    (hph : s.phase = Phase.dispatching)
    (h : PoolInv targets s) : PoolInv targets (dispatchStep s) := by
  unfold dispatchStep
  split
  case isTrue hlt =>
    rcases hp : s.pending with _ | ⟨t, rest⟩
    all_goals dsimp only
    · -- iterator exhausted: break out of the dispatch loop
      refine ⟨h.counter, h.nodup, h.bounded, h.recvLe, h.cap, ?_, ?_, h.joinedLe, ?_, ?_, ?_⟩
      · have horder := h.order
        rw [hp] at horder
        exact horder
      · intro _; rfl
      · intro hc
        exact absurd hc (by simp)
      · intro hc
        exact absurd hc (by simp)
      · intro _
        exact h.retNone (by rw [hph]; simp)
    · -- spawn a task for the next target
      have horder := h.order
      rw [hp] at horder
      have hcnt := h.counter
      have hjle := h.joinedLe
      refine ⟨?_, h.nodup, ?_, h.recvLe, ?_, ?_, ?_, ?_, ?_, ?_, ?_⟩
      · show s.numWorkers + 1 + s.consumed = (s.spawned ++ [t]).length
        simp only [List.length_append, List.length_cons, List.length_nil]
        omega
      · intro i hi
        show i < (s.spawned ++ [t]).length
        simp only [List.length_append, List.length_cons, List.length_nil]
        have := h.bounded i hi
        omega
      · show s.numWorkers + 1 ≤ maxWorkers
        omega
      · show (s.spawned ++ [t]) ++ rest = targets
        rw [List.append_assoc, List.singleton_append]
        exact horder
      · intro hc
        exact absurd (hph ▸ hc) (by simp [hph])
      · show s.joined ≤ (s.spawned ++ [t]).length
        simp only [List.length_append, List.length_cons, List.length_nil]
        omega
      · intro hc
        exact absurd (hc.symm.trans hph) (by simp)
      · intro hc
        exact absurd (hc.symm.trans hph) (by simp)
      · intro _
        exact h.retNone (by rw [hph]; simp)
  case isFalse => exact h

lemma poolInv_step {α : Type} {targets : List α} {s t : RdpState α}
    (h : PoolInv targets s) (hstep : Step s t) : PoolInv targets t := by
  cases hstep with
  | sched hph =>
      exact poolInv_dispatchStep
        (by rw [recvStep_phase]; exact hph) (poolInv_recvStep h)
  | complete i hph hi hnotin =>
      refine ⟨h.counter, ?_, ?_, ?_, h.cap, h.order, h.drained, h.joinedLe,
        h.finJoined, h.retFin, h.retNone⟩
      · exact List.nodup_cons.mpr ⟨hnotin, h.nodup⟩
      · intro j hj
        rcases List.mem_cons.mp hj with hj | hj
        · subst hj; exact hi
        · exact h.bounded j hj
      · show s.consumed ≤ (i :: s.done).length
        have := h.recvLe
        simp only [List.length_cons]
        omega
  | joinOk isErr hph hlt =>
      refine ⟨h.counter, h.nodup, h.bounded, h.recvLe, h.cap, h.order,
        h.drained, ?_, ?_, ?_, ?_⟩
      · show s.joined + 1 ≤ s.spawned.length
        omega
      · intro hc
        exact absurd ((show s.phase = Phase.finished from hc).symm.trans hph)
          (by simp)
      · intro hc
        exact absurd ((show s.phase = Phase.finished from hc).symm.trans hph)
          (by simp)
      · intro _
        exact h.retNone (by rw [hph]; simp)
  | joinFail hph hlt =>
      refine ⟨h.counter, h.nodup, h.bounded, h.recvLe, h.cap, h.order,
        ?_, h.joinedLe, ?_, ?_, ?_⟩
      · intro _
        exact h.drained (by rw [hph]; simp)
      · intro hc
        exact absurd hc (by simp)
      · intro hc
        exact absurd hc (by simp)
      · intro _
        exact h.retNone (by rw [hph]; simp)
  | finish hph hj =>
      refine ⟨h.counter, h.nodup, h.bounded, h.recvLe, h.cap, h.order,
        ?_, h.joinedLe, ?_, ?_, ?_⟩
      · intro _
        exact h.drained (by rw [hph]; simp)
      · intro _
        exact hj
      · intro _
        rfl
      · intro hc
        exact absurd rfl hc

/-- Every reachable state of `rdp_worker` satisfies the invariant. -/
lemma reachable_poolInv {α : Type} {targets : List α} {s : RdpState α}
    (h : Reachable targets s) : PoolInv targets s := by
  induction h with
  | init => exact poolInv_init targets
  | step _ hstep ih => exact poolInv_step ih hstep

/-! ## Web pipeline lemmas -/

/-- The two backends whose loop body implements the two-tier
error-severity policy (`match` on the error variant, lines 212-226 and
230-242). -/
def twoTier (b : Backend) : Prop :=
  b = Backend.wkhtmltoimage ∨ b = Backend.headlessChrome

lemma captureCtl_twoTier {b : Backend} (hb : twoTier b) (r : CaptureResult) :
    captureCtl b r =
      if r = CaptureResult.ioError then LoopCtl.stop else LoopCtl.next := by
  rcases hb with hb | hb <;> subst hb <;> cases r <;> rfl

lemma webGo_cons_next {b : Backend} {r : CaptureResult}
    (k : Nat) (rest : List CaptureResult)
    (h : captureCtl b r = LoopCtl.next) :
    webGo b k (r :: rest) =
      (WebEvent.start k :: WebEvent.finish k :: (webGo b (k + 1) rest).1,
       (webGo b (k + 1) rest).2.1 + 1, (webGo b (k + 1) rest).2.2) := by
  rw [webGo, h]

lemma webGo_cons_stop {b : Backend} {r : CaptureResult}
    (k : Nat) (rest : List CaptureResult)
    (h : captureCtl b r = LoopCtl.stop) :
    webGo b k (r :: rest) =
      ([WebEvent.start k, WebEvent.finish k], 1, some ()) := by
  rw [webGo, h]

lemma webGo_cons_abort {b : Backend} {r : CaptureResult}
    (k : Nat) (rest : List CaptureResult)
    (h : captureCtl b r = LoopCtl.abort) :
    webGo b k (r :: rest) =
      ([WebEvent.start k, WebEvent.finish k], 1, none) := by
  rw [webGo, h]

/-- Under a two-tier backend, a run over the targets before the first
`IoError` attempts every one of them: if positions `0..m-1` are free of
`IoError` and position `m` exists, at least `m + 1` targets are
attempted. -/
lemma webGo_attempts_ge {b : Backend} (hb : twoTier b) :
    ∀ (outs : List CaptureResult) (m k : Nat),
      (∀ j < m, outs[j]? ≠ some CaptureResult.ioError) →
      m < outs.length →
      m + 1 ≤ (webGo b k outs).2.1 := by
  intro outs
  induction outs with
  | nil =>
      intro m k _ hm
      simp at hm
  | cons r rest ih =>
      intro m k hno hm
      cases m with
      | zero =>
          by_cases hr : r = CaptureResult.ioError
          · rw [webGo_cons_stop k rest
              (by rw [captureCtl_twoTier hb r, if_pos hr])]
          · rw [webGo_cons_next k rest
              (by rw [captureCtl_twoTier hb r, if_neg hr])]
            dsimp only
            omega
      | succ n =>
          have hr : r ≠ CaptureResult.ioError := by
            intro hre
            exact hno 0 (Nat.succ_pos n)
              (by rw [List.getElem?_cons_zero, hre])
          rw [webGo_cons_next k rest
            (by rw [captureCtl_twoTier hb r, if_neg hr])]
          dsimp only
          have hrec := ih n (k + 1)
            (fun j hj => by
              have := hno (j + 1) (Nat.succ_lt_succ hj)
              rwa [List.getElem?_cons_succ] at this)
            (by simpa using hm)
          omega

/-- Under a two-tier backend, if position `i` yields `IoError` and no
earlier position does, the loop attempts exactly `i + 1` targets and then
breaks, so `web_worker` still returns `Ok(())`. -/
lemma webGo_stop {b : Backend} (hb : twoTier b) :
    ∀ (outs : List CaptureResult) (i k : Nat),
      outs[i]? = some CaptureResult.ioError →
      (∀ j < i, outs[j]? ≠ some CaptureResult.ioError) →
      (webGo b k outs).2.1 = i + 1 ∧ (webGo b k outs).2.2 = some () := by
  intro outs
  induction outs with
  | nil =>
      intro i k hi _
      simp at hi
  | cons r rest ih =>
      intro i k hi hno
      cases i with
      | zero =>
          rw [List.getElem?_cons_zero] at hi
          have hr : r = CaptureResult.ioError := by
            injection hi
          rw [webGo_cons_stop k rest
            (by rw [captureCtl_twoTier hb r, if_pos hr])]
          exact ⟨rfl, rfl⟩
      | succ n =>
          rw [List.getElem?_cons_succ] at hi
          have hr : r ≠ CaptureResult.ioError := by
            intro hre
            exact hno 0 (Nat.succ_pos n)
              (by rw [List.getElem?_cons_zero, hre])
          rw [webGo_cons_next k rest
            (by rw [captureCtl_twoTier hb r, if_neg hr])]
          dsimp only
          have hrec := ih n (k + 1) hi
            (fun j hj => by
              have := hno (j + 1) (Nat.succ_lt_succ hj)
              rwa [List.getElem?_cons_succ] at this)
          exact ⟨by rw [hrec.1], hrec.2⟩

/-- Under a two-tier backend the web thread never panics: the loop body
never unwraps a capture result, so `web_worker` always reaches
`Ok(())`. -/
lemma webGo_no_abort {b : Backend} (hb : twoTier b) :
    ∀ (outs : List CaptureResult) (k : Nat),
      (webGo b k outs).2.2 = some () := by
  intro outs
  induction outs with
  | nil => intro k; rfl
  | cons r rest ih =>
      intro k
      by_cases hr : r = CaptureResult.ioError
      · rw [webGo_cons_stop k rest
          (by rw [captureCtl_twoTier hb r, if_pos hr])]
      · rw [webGo_cons_next k rest
          (by rw [captureCtl_twoTier hb r, if_neg hr])]
        exact ih (k + 1)

/-- Under the `wkhtmltoimage_bin` backend, the first capture that returns
any `Err` is unwrapped (line 228) and panics the thread: with positions
`0..i-1` succeeding and position `i` failing, exactly `i + 1` targets are
attempted and the run ends in a panic. -/
lemma webGo_bin :
    ∀ (outs : List CaptureResult) (i k : Nat) (e : CaptureResult),
      outs[i]? = some e → e ≠ CaptureResult.ok →
      (∀ j < i, outs[j]? = some CaptureResult.ok) →
      (webGo Backend.wkhtmltoimageBin k outs).2.1 = i + 1 ∧
      (webGo Backend.wkhtmltoimageBin k outs).2.2 = none := by
  intro outs
  induction outs with
  | nil =>
      intro i k e hi _ _
      simp at hi
  | cons r rest ih =>
      intro i k e hi he hok
      cases i with
      | zero =>
          rw [List.getElem?_cons_zero] at hi
          have hr : r = e := by injection hi
          subst hr
          have hctl : captureCtl Backend.wkhtmltoimageBin r =
              LoopCtl.abort := by
            cases r with
            | ok => exact absurd rfl he
            | ioError => rfl
            | backendErr => rfl
          rw [webGo_cons_abort k rest hctl]
          exact ⟨rfl, rfl⟩
      | succ n =>
          rw [List.getElem?_cons_succ] at hi
          have hr : r = CaptureResult.ok := by
            have := hok 0 (Nat.succ_pos n)
            rw [List.getElem?_cons_zero] at this
            injection this
          subst hr
          rw [webGo_cons_next k rest
            (show captureCtl Backend.wkhtmltoimageBin CaptureResult.ok =
              LoopCtl.next from rfl)]
          dsimp only
          have hrec := ih n (k + 1) e hi he
            (fun j hj => by
              have := hok (j + 1) (Nat.succ_lt_succ hj)
              rwa [List.getElem?_cons_succ] at this)
          exact ⟨by rw [hrec.1], hrec.2⟩

/-- The event trace of a web run is the strictly ordered interleaving
`start i, finish i` for each attempted index: each capture finishes
before the next one starts. -/
lemma webGo_events (b : Backend) :
    ∀ (outs : List CaptureResult) (k : Nat),
      (webGo b k outs).1 =
        (List.range' k (webGo b k outs).2.1).flatMap
          (fun i => [WebEvent.start i, WebEvent.finish i]) := by
  intro outs
  induction outs with
  | nil => intro k; rfl
  | cons r rest ih =>
      intro k
      cases hctl : captureCtl b r with
      | next =>
          rw [webGo_cons_next k rest hctl]
          dsimp only
          rw [ih (k + 1), List.range'_succ, List.flatMap_cons]
          rfl
      | stop =>
          rw [webGo_cons_stop k rest hctl]
          simp [List.range'_one]
      | abort =>
          rw [webGo_cons_abort k rest hctl]
          simp [List.range'_one]

/-! ## Join-phase progress -/

/-- Steps compose: a finite sequence of transitions from a reachable
state ends in a reachable state. -/
lemma reachable_of_steps {α : Type} {targets : List α}
    {s t : RdpState α} (h : Reachable targets s)
    (hst : Relation.ReflTransGen Step s t) : Reachable targets t := by
  induction hst with
  | refl => exact h
  | tail _ hstep ih => exact Reachable.step ih hstep

/-- From any joining-phase state, the join loop can join every remaining
handle — with the tasks' internal results chosen arbitrarily by `errs` —
and reach the `Ok(())` return, recording exactly the failed tasks as
warnings. -/
lemma join_progress {α : Type} (errs : Nat → Bool) :
    ∀ (k : Nat) (s : RdpState α),
      s.phase = Phase.joining → s.joined + k = s.spawned.length →
      ∃ t, Relation.ReflTransGen Step s t ∧
        t.phase = Phase.finished ∧
        t.spawned = s.spawned ∧
        t.joined = t.spawned.length ∧
        t.retVal = some (Except.ok ()) ∧
        t.warned = s.warned ++
          (List.range' s.joined k).filter (fun i => errs i) := by
  intro k
  induction k with
  | zero =>
      intro s hph hj
      refine ⟨{ s with phase := Phase.finished,
                       retVal := some (Except.ok ()) },
        Relation.ReflTransGen.single (Step.finish s hph (by omega)),
        rfl, rfl, ?_, rfl, ?_⟩
      · show s.joined = s.spawned.length
        omega
      · show s.warned = s.warned ++ (List.range' s.joined 0).filter _
        simp
  | succ n ih =>
      intro s hph hj
      have hlt : s.joined < s.spawned.length := by omega
      set s' : RdpState α :=
        { s with joined := s.joined + 1,
                 warned := if errs s.joined then s.warned ++ [s.joined]
                           else s.warned } with hs'
      have hstep : Step s s' := Step.joinOk s (errs s.joined) hph hlt
      have hph' : s'.phase = Phase.joining := hph
      have hj' : s'.joined + n = s'.spawned.length := by
        show s.joined + 1 + n = s.spawned.length
        omega
      obtain ⟨t, hsteps, h1, h2, h3, h4, h5⟩ := ih s' hph' hj'
      refine ⟨t, Relation.ReflTransGen.head hstep hsteps, h1, h2, h3, h4, ?_⟩
      rw [h5]
      show (if errs s.joined then s.warned ++ [s.joined] else s.warned) ++
          (List.range' (s.joined + 1) n).filter (fun i => errs i) =
        s.warned ++ (List.range' s.joined (n + 1)).filter (fun i => errs i)
      rw [List.range'_succ, List.filter_cons]
      by_cases he : errs s.joined
      · rw [if_pos he, if_pos (by simpa using he), List.append_assoc,
          List.singleton_append]
      · rw [if_neg he, if_neg (by simpa using he)]

/-! ## Concrete executions -/

/-- A concrete two-element RDP target list, for exhibiting executions. -/
def demoTargets : List Nat := [10, 20]

/-- The state after three dispatch-loop iterations on `demoTargets`:
both targets spawned, iterator exhausted, dispatch loop exited. -/
def demoJoining : RdpState Nat :=
  schedStep (schedStep (schedStep (initState demoTargets)))

lemma demoJoining_reachable : Reachable demoTargets demoJoining :=
  Reachable.step
    (Reachable.step
      (Reachable.step Reachable.init
        (Step.sched (initState demoTargets) rfl))
      (Step.sched (schedStep (initState demoTargets)) (by decide)))
    (Step.sched (schedStep (schedStep (initState demoTargets))) (by decide))

/-- The state after the first spawned task has sent its `Complete`
signal that the scheduler has not yet consumed. -/
def demoOneDone : RdpState Nat := { demoJoining with done := [0] }

lemma demoOneDone_reachable : Reachable demoTargets demoOneDone :=
  Reachable.step demoJoining_reachable
    (Step.complete demoJoining 0 (Or.inr (by decide)) (by decide)
      (by decide))

/-- A terminal state of the pool on `demoTargets`: both handles joined,
`Ok(())` returned. -/
def demoFinished : RdpState Nat :=
  { pending := []
    spawned := [10, 20]
    numWorkers := 2
    consumed := 0
    done := []
    phase := Phase.finished
    joined := 2
    warned := []
    retVal := some (Except.ok ()) }

lemma demoFinished_reachable : Reachable demoTargets demoFinished := by
  have h1 := Reachable.step demoJoining_reachable
    (Step.joinOk demoJoining false (by decide) (by decide))
  have h2 := Reachable.step h1
    (Step.joinOk _ false (by decide) (by decide))
  exact Reachable.step h2 (Step.finish _ (by decide) (by decide))

/-! ## Directory-setup lemmas -/

lemma ensureDir_some {ok : Bool} {o o' : Option Nat}
    (h : ensureDir ok o = some o') : ∃ c, o' = some c := by
  cases o with
  | some c =>
      rw [ensureDir] at h
      exact ⟨c, by injection h with h; exact h.symm⟩
  | none =>
      rw [ensureDir] at h
      by_cases hok : ok = true
      · rw [if_pos hok] at h
        exact ⟨0, by injection h with h; exact h.symm⟩
      · rw [if_neg hok] at h
        cases h

lemma setupDirs_exists {env : FsEnv} {fs : DirState} {c d : Nat}
    (hr : fs.rdp = some c) (hw : fs.web = some d) :
    setupDirs env fs = some fs := by
  rcases fs with ⟨r, w⟩
  dsimp only at hr hw
  subst hr; subst hw
  rfl

lemma setupDirs_result_exists {env : FsEnv} {fs fs' : DirState}
    (h : setupDirs env fs = some fs') :
    (∃ c, fs'.rdp = some c) ∧ ∃ d, fs'.web = some d := by
  rw [setupDirs] at h
  cases hr : ensureDir env.rdpCreateOk fs.rdp with
  | none => rw [hr] at h; cases h
  | some r =>
      rw [hr] at h
      cases hw : ensureDir env.webCreateOk fs.web with
      | none => rw [hw] at h; cases h
      | some w =>
          rw [hw] at h
          injection h with h
          subst h
          exact ⟨ensureDir_some hr, ensureDir_some hw⟩

/-! ## Environments for the orchestrator theorems -/

/-- An environment in which every fallible operation outside the capture
loops succeeds except the creation of the requested log file
(`File::create(log_file).unwrap()`, line 73); both output directories
already exist. -/
def logFailEnv : MainEnv :=
  { logFileRequested := true
    logFileCreateOk := false
    loggerInitOk := true
    rdpDirExists := true
    rdpDirCreateOk := true
    webDirExists := true
    webDirCreateOk := true
    rdpThreadPanicked := false
    rdpWorkerErr := false
    webThreadPanicked := false }

/-- An environment in which every fallible operation succeeds. -/
def allGoodEnv : MainEnv :=
  { logFileRequested := true
    logFileCreateOk := true
    loggerInitOk := true
    rdpDirExists := false
    rdpDirCreateOk := true
    webDirExists := false
    webDirCreateOk := true
    rdpThreadPanicked := false
    rdpWorkerErr := false
    webThreadPanicked := false }

/-! ## Claim theorems -/

/-- C1: for every RDP target list of size N ≥ 0, `rdp_worker` dispatches
(spawns a capture task for) each of the N targets exactly once — whenever
it reaches its return, the spawn sequence is exactly the input target
list — and it returns only after every spawned task handle has been
joined. -/
theorem rdp_dispatch_once_join_all {α : Type} (targets : List α)
    (s : RdpState α) (h : Reachable targets s)
    (hfin : s.phase = Phase.finished) :
    s.spawned = targets ∧ s.joined = s.spawned.length := by
  have hinv := reachable_poolInv h
  have hpend : s.pending = [] := hinv.drained (by rw [hfin]; simp)
  refine ⟨?_, hinv.finJoined hfin⟩
  have horder := hinv.order
  rw [hpend, List.append_nil] at horder
  exact horder

theorem rdp_dispatch_once_join_all_check :
    demoFinished.phase = Phase.finished ∧
    (demoFinished.spawned = demoTargets ∧
     demoFinished.joined = demoFinished.spawned.length) :=
  ⟨by decide,
   rdp_dispatch_once_join_all demoTargets demoFinished
     demoFinished_reachable (by decide)⟩

/-- C2: at every instant during RDP scheduling the number of
spawned-but-not-yet-completed capture tasks is at most 3: `num_workers`
(spawns minus observed completion signals) never exceeds the limit 3,
because a spawn happens only under `num_workers < max_workers`, and the
count of running (spawned but not yet signalled-complete) tasks is
bounded by it. -/
theorem rdp_running_bounded {α : Type} (targets : List α)
    (s : RdpState α) (h : Reachable targets s) :
    s.numWorkers ≤ 3 ∧ s.spawned.length - s.done.length ≤ 3 := by
  have hinv := reachable_poolInv h
  have hcap : s.numWorkers ≤ 3 := hinv.cap
  have hcnt := hinv.counter
  have hrecv := hinv.recvLe
  exact ⟨hcap, by omega⟩

theorem rdp_running_bounded_check :
    demoJoining.numWorkers ≤ 3 ∧
    demoJoining.spawned.length - demoJoining.done.length ≤ 3 :=
  rdp_running_bounded demoTargets demoJoining demoJoining_reachable

/-- C3: in the web capture pipeline, a systemic failure (`Error::IoError`)
at position `i` terminates the pipeline with exactly `i + 1` targets
attempted and nothing after `i` attempted: under the two-tier backends
(`wkhtmltoimage`, `headlesschrome`) the loop `break`s and `web_worker`
still returns `Ok(())`; under `wkhtmltoimage_bin` the `unwrap` panics at
the first failure, likewise after attempting exactly `i + 1` targets. -/
theorem web_systemic_stops (outs : List CaptureResult) (i : Nat)
    (hio : outs[i]? = some CaptureResult.ioError) :
    ((∀ j < i, outs[j]? ≠ some CaptureResult.ioError) →
        (webAttempts Backend.wkhtmltoimage outs = i + 1 ∧
         webResult Backend.wkhtmltoimage outs = some ()) ∧
        (webAttempts Backend.headlessChrome outs = i + 1 ∧
         webResult Backend.headlessChrome outs = some ())) ∧
    ((∀ j < i, outs[j]? = some CaptureResult.ok) →
        webAttempts Backend.wkhtmltoimageBin outs = i + 1 ∧
        webResult Backend.wkhtmltoimageBin outs = none) := by
  constructor
  · intro hno
    exact ⟨webGo_stop (Or.inl rfl) outs i 0 hio hno,
           webGo_stop (Or.inr rfl) outs i 0 hio hno⟩
  · intro hok
    exact webGo_bin outs i 0 CaptureResult.ioError hio (by decide) hok

theorem web_systemic_stops_check :
    (webAttempts Backend.wkhtmltoimage
        [CaptureResult.ok, CaptureResult.backendErr, CaptureResult.ioError,
         CaptureResult.ok] = 3 ∧
     webResult Backend.wkhtmltoimage
        [CaptureResult.ok, CaptureResult.backendErr, CaptureResult.ioError,
         CaptureResult.ok] = some ()) ∧
    (webAttempts Backend.wkhtmltoimageBin
        [CaptureResult.ok, CaptureResult.ok, CaptureResult.ioError,
         CaptureResult.ok] = 3 ∧
     webResult Backend.wkhtmltoimageBin
        [CaptureResult.ok, CaptureResult.ok, CaptureResult.ioError,
         CaptureResult.ok] = none) :=
  ⟨((web_systemic_stops
      [CaptureResult.ok, CaptureResult.backendErr, CaptureResult.ioError,
       CaptureResult.ok] 2 (by decide)).1 (by decide)).1,
   (web_systemic_stops
      [CaptureResult.ok, CaptureResult.ok, CaptureResult.ioError,
       CaptureResult.ok] 2 (by decide)).2 (by decide)⟩

/-- C4 counterexample: under the compiled-in `wkhtmltoimage_bin` backend,
a per-target (backend-specific) failure at position 0 does NOT lead to
position 1 being attempted: only 1 target is attempted (not 2) and the
thread panics at the `unwrap` of line 228, so the claim "under every
compiled-in backend ... the target at position i+1 is attempted next" is
false. -/
theorem web_per_target_bin_stops :
    webAttempts Backend.wkhtmltoimageBin
      [CaptureResult.backendErr, CaptureResult.ok] = 1 ∧
    webAttempts Backend.wkhtmltoimageBin
      [CaptureResult.backendErr, CaptureResult.ok] ≠ 2 ∧
    webResult Backend.wkhtmltoimageBin
      [CaptureResult.backendErr, CaptureResult.ok] = none := by
  decide

/-- C4 (amended): under the `wkhtmltoimage` and `headlesschrome` backends
a per-target (backend-specific) failure at position `i` does not stop the
pipeline — position `i + 1` is attempted next and `web_worker` returns
`Ok(())`; under the `wkhtmltoimage_bin` backend any capture failure,
per-target ones included, panics the thread and no further target is
attempted. -/
theorem web_per_target_continue (outs : List CaptureResult) (i : Nat) :
    ((outs[i]? = some CaptureResult.backendErr →
      (∀ j < i, outs[j]? ≠ some CaptureResult.ioError) →
      i + 1 < outs.length →
      i + 2 ≤ webAttempts Backend.wkhtmltoimage outs ∧
      i + 2 ≤ webAttempts Backend.headlessChrome outs ∧
      webResult Backend.wkhtmltoimage outs = some () ∧
      webResult Backend.headlessChrome outs = some ())) ∧
    ((∀ j < i, outs[j]? = some CaptureResult.ok) →
      outs[i]? = some CaptureResult.backendErr →
      webAttempts Backend.wkhtmltoimageBin outs = i + 1 ∧
      webResult Backend.wkhtmltoimageBin outs = none) := by
  constructor
  · intro hbe hno hlen
    have hno' : ∀ j < i + 1, outs[j]? ≠ some CaptureResult.ioError := by
      intro j hj
      rcases Nat.lt_succ_iff_lt_or_eq.mp hj with hj | hj
      · exact hno j hj
      · subst hj
        rw [hbe]
        intro hc
        injection hc with hc
        cases hc
    exact ⟨webGo_attempts_ge (Or.inl rfl) outs (i + 1) 0 hno' hlen,
           webGo_attempts_ge (Or.inr rfl) outs (i + 1) 0 hno' hlen,
           webGo_no_abort (Or.inl rfl) outs 0,
           webGo_no_abort (Or.inr rfl) outs 0⟩
  · intro hok hbe
    exact webGo_bin outs i 0 CaptureResult.backendErr hbe (by decide) hok

theorem web_per_target_continue_check :
    (2 ≤ webAttempts Backend.wkhtmltoimage
        [CaptureResult.backendErr, CaptureResult.ok] ∧
     2 ≤ webAttempts Backend.headlessChrome
        [CaptureResult.backendErr, CaptureResult.ok] ∧
     webResult Backend.wkhtmltoimage
        [CaptureResult.backendErr, CaptureResult.ok] = some () ∧
     webResult Backend.headlessChrome
        [CaptureResult.backendErr, CaptureResult.ok] = some ()) ∧
    (webAttempts Backend.wkhtmltoimageBin
        [CaptureResult.backendErr, CaptureResult.ok] = 1 ∧
     webResult Backend.wkhtmltoimageBin
        [CaptureResult.backendErr, CaptureResult.ok] = none) :=
  ⟨(web_per_target_continue
      [CaptureResult.backendErr, CaptureResult.ok] 0).1
        (by decide) (by intro j hj; cases hj) (by decide),
   (web_per_target_continue
      [CaptureResult.backendErr, CaptureResult.ok] 0).2
        (by intro j hj; cases hj) (by decide)⟩

/-- C5 counterexample: failure to create the requested log file
(line 73) aborts the process even though both output directories exist
and their creation would succeed — so directory-creation failure is not
the one unconditionally fatal condition in the system. -/
theorem main_nondir_failure_aborts :
    mainRun logFailEnv = none ∧
    logFailEnv.rdpDirExists = true ∧ logFailEnv.webDirExists = true ∧
    logFailEnv.rdpDirCreateOk = true ∧ logFailEnv.webDirCreateOk = true := by
  decide

/-- C5 (amended): directory-creation failure is indeed unconditionally
fatal, but it is not the only fatal condition: the process aborts exactly
when log-file creation (if requested), logger initialization, directory
creation (when the directory is absent), or joining either pipeline
thread fails, or `rdp_worker` returns `Err`; failures handled inside the
two-tier web capture loop never panic the web thread, and with all the
above succeeding the process exits successfully. -/
theorem main_exit_characterization (e : MainEnv) :
    (mainRun e = some () ↔
      ((e.logFileRequested = true → e.logFileCreateOk = true) ∧
       e.loggerInitOk = true ∧
       (e.rdpDirExists = true ∨ e.rdpDirCreateOk = true) ∧
       (e.webDirExists = true ∨ e.webDirCreateOk = true) ∧
       e.rdpThreadPanicked = false ∧ e.rdpWorkerErr = false ∧
       e.webThreadPanicked = false)) ∧
    (∀ outs : List CaptureResult,
       webResult Backend.wkhtmltoimage outs = some () ∧
       webResult Backend.headlessChrome outs = some ()) := by
  constructor
  · rcases e with ⟨a, b, c, d, e1, f, g, h1, i1, j1⟩
    revert a b c d e1 f g h1 i1 j1
    decide
  · intro outs
    exact ⟨webGo_no_abort (Or.inl rfl) outs 0,
           webGo_no_abort (Or.inr rfl) outs 0⟩

theorem main_exit_characterization_check :
    mainRun allGoodEnv = some () :=
  (main_exit_characterization allGoodEnv).1.mpr (by decide)

/-- C6: if the capture task for target `k` fails internally, the failure
surfaces only at join time as a logged warning: from any joining-phase
state and for ANY assignment `errs` of internal failures to tasks, every
remaining handle is still joined, the pool still reaches the `Ok(())`
return, and the only effect of the failures is the warnings logged for
exactly the failing tasks. -/
theorem rdp_failure_isolated {α : Type} (targets : List α)
    (s : RdpState α) (errs : Nat → Bool) (h : Reachable targets s)
    (hph : s.phase = Phase.joining) :
    ∃ t, Relation.ReflTransGen Step s t ∧ Reachable targets t ∧
      t.phase = Phase.finished ∧ t.spawned = s.spawned ∧
      t.joined = t.spawned.length ∧ t.retVal = some (Except.ok ()) ∧
      t.warned = s.warned ++
        (List.range' s.joined (s.spawned.length - s.joined)).filter
          (fun i => errs i) := by
  have hinv := reachable_poolInv h
  have hle := hinv.joinedLe
  obtain ⟨t, hsteps, h1, h2, h3, h4, h5⟩ :=
    join_progress errs (s.spawned.length - s.joined) s hph (by omega)
  exact ⟨t, hsteps, reachable_of_steps h hsteps, h1, h2, h3, h4, h5⟩

theorem rdp_failure_isolated_check :
    demoJoining.phase = Phase.joining ∧
    ∃ t, Relation.ReflTransGen Step demoJoining t ∧
      Reachable demoTargets t ∧
      t.phase = Phase.finished ∧ t.spawned = demoJoining.spawned ∧
      t.joined = t.spawned.length ∧ t.retVal = some (Except.ok ()) ∧
      t.warned = demoJoining.warned ++
        (List.range' demoJoining.joined
          (demoJoining.spawned.length - demoJoining.joined)).filter
          (fun i => i == 0) :=
  ⟨by decide,
   rdp_failure_isolated demoTargets demoJoining (fun i => i == 0)
     demoJoining_reachable (by decide)⟩

/-- C7: RDP targets are dispatched in source-list order (the spawn
sequence is always a prefix of the target list), with no guarantee on
completion order (a run over two targets exists in which the second
spawned task signals completion before the first); web targets are both
dispatched and completed in strict source order: the web event trace is
`start 0, finish 0, start 1, finish 1, ...`, so each capture finishes
before the next begins. -/
theorem ordering_guarantees :
    (∀ (α : Type) (targets : List α) (s : RdpState α),
        Reachable targets s → ∃ rest, s.spawned ++ rest = targets) ∧
    (∃ s : RdpState Nat, Reachable demoTargets s ∧
        s.spawned = demoTargets ∧ s.done = [0, 1]) ∧
    (∀ (b : Backend) (outs : List CaptureResult),
        webEvents b outs =
          (List.range (webAttempts b outs)).flatMap
            (fun i => [WebEvent.start i, WebEvent.finish i])) := by
  refine ⟨?_, ?_, ?_⟩
  · intro α targets s h
    exact ⟨s.pending, (reachable_poolInv h).order⟩
  · refine ⟨_,
      Reachable.step
        (Reachable.step demoJoining_reachable
          (Step.complete demoJoining 1 (Or.inr (by decide)) (by decide)
            (by decide)))
        (Step.complete _ 0 (Or.inr (by decide)) (by decide) (by decide)),
      by decide, by decide⟩
  · intro b outs
    show (webGo b 0 outs).1 =
      (List.range (webGo b 0 outs).2.1).flatMap
        (fun i => [WebEvent.start i, WebEvent.finish i])
    rw [List.range_eq_range']
    exact webGo_events b outs 0

theorem ordering_guarantees_check :
    ∃ rest, demoJoining.spawned ++ rest = demoTargets :=
  ordering_guarantees.1 Nat demoTargets demoJoining demoJoining_reachable

/-- C8: output-directory setup is idempotent: when both directories
already exist the setup is a no-op that succeeds and leaves the
filesystem state unchanged, and running the setup twice is equivalent to
running it once (a successful run leaves a state on which a second run is
the identity). -/
theorem setup_idempotent :
    (∀ (env : FsEnv) (fs : DirState) (c d : Nat),
        fs.rdp = some c → fs.web = some d → setupDirs env fs = some fs) ∧
    (∀ (env : FsEnv) (fs fs' : DirState),
        setupDirs env fs = some fs' → setupDirs env fs' = some fs') := by
  constructor
  · intro env fs c d hr hw
    exact setupDirs_exists hr hw
  · intro env fs fs' h
    obtain ⟨⟨c, hc⟩, ⟨d, hd⟩⟩ := setupDirs_result_exists h
    exact setupDirs_exists hc hd

theorem setup_idempotent_check :
    setupDirs ⟨false, false⟩ ⟨some 5, some 7⟩ = some ⟨some 5, some 7⟩ ∧
    setupDirs ⟨true, true⟩ ⟨none, none⟩ = some ⟨some 0, some 0⟩ ∧
    setupDirs ⟨true, true⟩ ⟨some 0, some 0⟩ = some ⟨some 0, some 0⟩ :=
  ⟨setup_idempotent.1 ⟨false, false⟩ ⟨some 5, some 7⟩ 5 7 rfl rfl,
   by decide,
   setup_idempotent.2 ⟨true, true⟩ ⟨none, none⟩ ⟨some 0, some 0⟩
     (by decide)⟩

/-- C9 (implicit): `rdp_worker` never returns its declared error value:
every reachable state carries either no return value or `Ok(())` — the
only `return` in the function is `Ok(())` at line 184 — and a worker
handle that cannot be joined leads to the panicked state with no return
value, not to an `Err` return. -/
theorem rdp_worker_result_ok {α : Type} (targets : List α)
    (s : RdpState α) (h : Reachable targets s) :
    s.retVal ≠ some (Except.error ()) ∧
    (s.phase = Phase.finished → s.retVal = some (Except.ok ())) ∧
    (s.phase = Phase.panicked → s.retVal = none) := by
  have hinv := reachable_poolInv h
  refine ⟨?_, hinv.retFin, ?_⟩
  · by_cases hf : s.phase = Phase.finished
    · rw [hinv.retFin hf]
      simp
    · rw [hinv.retNone hf]
      simp
  · intro hp
    exact hinv.retNone (by rw [hp]; simp)

theorem rdp_worker_result_ok_check :
    demoFinished.retVal ≠ some (Except.error ()) ∧
    (demoFinished.phase = Phase.finished →
      demoFinished.retVal = some (Except.ok ())) ∧
    (demoFinished.phase = Phase.panicked → demoFinished.retVal = none) :=
  rdp_worker_result_ok demoTargets demoFinished demoFinished_reachable

/-- C10 (implicit): each spawned task sends at most one `Complete`
message (built into the transition system), and whenever the scheduler
can receive a `Complete` message — the channel holds an unconsumed
message, `consumed < done.length` — its `num_workers` counter is strictly
positive, so the unsigned decrement `num_workers -= 1` (line 156) never
underflows. -/
theorem rdp_decrement_safe {α : Type} (targets : List α)
    (s : RdpState α) (h : Reachable targets s)
    (hmsg : s.consumed < s.done.length) :
    0 < s.numWorkers := by
  have hinv := reachable_poolInv h
  have hdl := length_le_of_nodup_bounded hinv.nodup hinv.bounded
  have hc := hinv.counter
  omega

theorem rdp_decrement_safe_check :
    demoOneDone.consumed < demoOneDone.done.length ∧
    0 < demoOneDone.numWorkers :=
  ⟨by decide,
   rdp_decrement_safe demoTargets demoOneDone demoOneDone_reachable
     (by decide)⟩

end Scrying
